import Mathlib

/-!
Shallow embedding of the rvemu-baremetal.js core subsystems (the region-based
memory system, the RV instruction decoder, the core dispatch loop and the
register file), translated from the TypeScript source, together with theorems
settling the specification claims about them.

Modelling conventions:
* JS `bigint` values become `Int`; JS `number` values used as sizes/indices
  become `Nat`; byte buffers (`Uint8Array` / `Buffer`) become `List Nat`
  with stores reduced mod 256 as a typed array does.
* Thrown exceptions become `Except` errors; a `try`/`catch` becomes a `match`
  on the `Except` value of the whole guarded block (the source performs no
  observable mutation before any of its throws, so this is faithful).
* JS 32-bit bitwise operator semantics (`ToUint32`/`ToInt32` coercions and
  shift counts taken mod 32) are modelled explicitly.
-/

namespace RVEmu

/-- JS ToUint32 coercion of an integer (used for the left operand of the
unsigned shift and for shift counts). -/
def jsToUint32 (x : Int) : Nat := (x % 4294967296).toNat

/-- JS ToInt32 coercion of an integer: the result of 32-bit bitwise
operators on JS numbers. -/
def jsToInt32 (x : Int) : Int :=
  let r := x % 4294967296
  if r < 2147483648 then r else r - 4294967296

/-- Bitwise AND on JS bigints. The source only applies it to non-negative
operands, for which this is exact. -/
def landInt (a b : Int) : Int := Int.ofNat (a.toNat &&& b.toNat)

/-- JS unsigned right shift `a >>> b` on numbers: both operands coerced
(`ToUint32` on the left, shift count taken mod 32). -/
def jsShru (a b : Int) : Nat := Nat.shiftRight (jsToUint32 a) (jsToUint32 b % 32)

/-- JS left shift `a << b` on numbers: shift the 32-bit pattern and
reinterpret as a signed 32-bit integer. -/
def jsShl (a b : Int) : Int :=
  jsToInt32 (Int.ofNat (jsToUint32 a * 2 ^ (jsToUint32 b % 32)))

/-- JS bitwise OR `a | b` on numbers (32-bit, signed result). -/
def jsOr (a b : Int) : Int :=
  jsToInt32 (Int.ofNat (Nat.lor (jsToUint32 a) (jsToUint32 b)))

/-- JS bitwise AND `a & b` on numbers (32-bit, signed result). -/
def jsAnd (a b : Int) : Int :=
  jsToInt32 (Int.ofNat (Nat.land (jsToUint32 a) (jsToUint32 b)))

/-- Error taxonomy of the memory layer: `MemoryError` and
`MemoryRegionError` from src/memory. -/
inductive MemErr where
  | memoryError
  | regionError
deriving DecidableEq

/-- State of a `NormalMemoryRegion` (src/memory): the `BaseMemoryRegion`
fields plus the `memBackend` buffer. The capability flags are kept as data
so that the branches of `Memory.write` that consult them stay literal. -/
structure Region where
  regionStart : Int
  regionSize : Int
  resizable : Bool
  relocatable : Bool
  mergeable : Bool
  memBackend : List Nat
deriving DecidableEq

/-- Payload built by the `NormalMemoryRegion` constructor: capability flags
`resizable=true, relocatable=false, mergeable=true` and a zero-filled
backing buffer (`Buffer.alloc`). -/
def normalRegion (start size : Int) : Region :=
  { regionStart := start
    regionSize := size
    resizable := true
    relocatable := false
    mergeable := true
    memBackend := List.replicate size.toNat 0 }

/-- The `NormalMemoryRegion` constructor, including the base-class guard
`_start < 0 || _size <= 0` which throws `MemoryRegionError`. -/
def mkNormalRegion (start size : Int) : Except MemErr Region :=
  if start < 0 ∨ size ≤ 0 then .error .regionError
  else .ok (normalRegion start size)

/-- Literal translation of `BaseMemoryRegion.isValidAccess`:
rejects when `accessStart < 0 || accessEnd < 0 || accessEnd >= regionSize`
(note the `>=`: an access ending exactly at the region end is rejected). -/
def isValidAccess (r : Region) (address : Int) (size : Nat) : Bool :=
  let accessStart := address - r.regionStart
  let accessEnd := accessStart + (size : Int)
  ¬ (accessStart < 0 ∨ accessEnd < 0 ∨ accessEnd ≥ r.regionSize)

/-- Literal translation of `BaseMemoryRegion.isOverlap`. -/
def isOverlap (a b : Region) : Bool :=
  let aStart := a.regionStart
  let aEnd := a.regionStart + a.regionSize
  let bStart := b.regionStart
  let bEnd := b.regionStart + b.regionSize
  ((aStart < bEnd) ∧ (aStart ≥ bStart)) ∨
  ((aEnd ≤ bEnd) ∧ (aEnd > bStart)) ∨
  ((bStart < aEnd) ∧ (bStart ≥ aStart)) ∨
  ((bEnd ≤ aEnd) ∧ (bEnd > aStart))

/-- Literal translation of `BaseMemoryRegion.isHigherThan`. -/
def isHigherThan (a b : Region) : Bool :=
  a.regionStart ≥ b.regionStart + b.regionSize

/-- Literal translation of `BaseMemoryRegion.isAlignLower`:
true if the other region ends right where this one starts. -/
def isAlignLower (a b : Region) : Bool :=
  a.regionStart = b.regionStart + b.regionSize

/-- Literal translation of `BaseMemoryRegion.isAddressHigher`. -/
def isAddressHigher (r : Region) (address : Int) : Bool :=
  address ≥ r.regionStart + r.regionSize

/-- `NormalMemoryRegion.read`: range-check, then copy `size` bytes starting
at `address - regionStart` out of the backing buffer. -/
def regionRead (r : Region) (address : Int) (size : Nat) : Except MemErr (List Nat) :=
  if ¬ isValidAccess r address size then .error .regionError
  else
    let offset := (address - r.regionStart).toNat
    .ok ((List.range size).map fun i => r.memBackend.getD (offset + i) 0)

/-- `Buffer.fill(data, start, end)` as used by `NormalMemoryRegion.write`:
the range `[start, end)` is filled with the `data` pattern repeated
cyclically (and with zeros when `data` is empty), each byte reduced
mod 256 as a byte buffer stores it. -/
def bufferFill (buf data : List Nat) (start stop : Nat) : List Nat :=
  (List.range buf.length).map fun i =>
    if start ≤ i ∧ i < stop then
      (if data.isEmpty then 0 else data.getD ((i - start) % data.length) 0 % 256)
    else buf.getD i 0

/-- `NormalMemoryRegion.write`: range-check, then
`memBackend.fill(data, offset, offset + size)`. -/
def regionWrite (r : Region) (address : Int) (size : Nat) (data : List Nat) :
    Except MemErr Region :=
  if ¬ isValidAccess r address size then .error .regionError
  else
    let offset := (address - r.regionStart).toNat
    .ok { r with memBackend := bufferFill r.memBackend data offset (offset + size) }

/-- `NormalMemoryRegion.resize`: refuses to shrink or go negative, else
reallocates a larger zero-padded buffer. Returns the success flag together
with the updated region. -/
def regionResize (r : Region) (newSize : Int) : Bool × Region :=
  if newSize < 0 ∨ newSize < r.regionSize then (false, r)
  else
    (true, { r with
      regionSize := newSize
      memBackend :=
        (r.memBackend ++ List.replicate (newSize.toNat - r.memBackend.length) 0).take
          newSize.toNat })

/-- `NormalMemoryRegion._mergeHelper`: unconditionally concatenates the other
region data onto the backing buffer and updates `regionSize`; always
reports success. -/
def mergeHelper (r : Region) (otherData : List Nat) : Bool × Region :=
  let backend := r.memBackend ++ otherData
  (true, { r with memBackend := backend, regionSize := Int.ofNat backend.length })

/-- `BaseMemoryRegion.merge`: returns false if either side is not mergeable,
otherwise dumps the other region and runs `_mergeHelper`, throwing
`MemoryRegionError` only when the helper reports failure. -/
def regionMerge (a b : Region) : Except MemErr (Bool × Region) :=
  if ¬ a.mergeable ∨ ¬ b.mergeable then .ok (false, a)
  else
    let otherData := b.memBackend
    let result := mergeHelper a otherData
    if ¬ result.1 then .error .regionError
    else .ok (true, result.2)

/-- State of `Memory` (src/memory). -/
structure Memory where
  memoryRegions : List Region
  defaultMemRegionSize : Int
  memoryStart : Int
  memorySize : Int
deriving DecidableEq

/-- Literal translation of `Memory.isRegionValid`: note that the source
compares `region.regionStart < this.memorySize` (not against
`memoryStart`/`memoryStart + memorySize`). -/
def isRegionValid (m : Memory) (r : Region) : Bool :=
  let regionAddressRangeValid :=
    ¬ ((r.regionStart < m.memorySize) ∨ (r.regionSize > m.memorySize))
  let defaultSizeMask := m.defaultMemRegionSize - 1
  let regionAlignedDefaultSize := landInt r.regionStart defaultSizeMask = 0
  regionAddressRangeValid ∧ regionAlignedDefaultSize

/-- Insertion loop of `Memory.addMemoryRegion` over the non-empty region
list. Mirrors the source iteration: throw on overlap; on `isAlignLower`
merge the incoming region with the current one and return (the merged
object is never inserted, so the list is unchanged) or, if the merge
reports false, break and insert here; break and insert before the first
region that `isHigherThan` the incoming one; otherwise keep scanning and
finally append. -/
def addRegionLoop (region : Region) : List Region → Except MemErr (List Region)
  | [] => .ok [region]
  | current :: rest =>
    if isOverlap current region then .error .regionError
    else if isAlignLower current region then
      match regionMerge region current with
      | .error e => .error e
      | .ok (true, _) => .ok (current :: rest)
      | .ok (false, _) => .ok (region :: current :: rest)
    else if isHigherThan current region then .ok (region :: current :: rest)
    else
      match addRegionLoop region rest with
      | .error e => .error e
      | .ok rest1 => .ok (current :: rest1)

/-- `Memory.addMemoryRegion`: bound/alignment check via `isRegionValid`,
then push into an empty list or run the insertion loop. -/
def addMemoryRegion (m : Memory) (region : Region) : Except MemErr Memory :=
  if ¬ isRegionValid m region then .error .regionError
  else if m.memoryRegions.isEmpty then
    .ok { m with memoryRegions := [region] }
  else
    match addRegionLoop region m.memoryRegions with
    | .error e => .error e
    | .ok regions1 => .ok { m with memoryRegions := regions1 }

/-- `Memory.findRegion`: first region accepting the access, else
`MemoryRegionError`. -/
def findRegion (m : Memory) (address : Int) (size : Nat) : Except MemErr Region :=
  match m.memoryRegions.find? (fun r => isValidAccess r address size) with
  | some r => .ok r
  | none => .error .regionError

/-- Index of the region `findRegion` returns (the source later recovers it
with `indexOf`, which uses object identity and therefore yields the position
of that same first match). -/
def findRegionIdx (m : Memory) (address : Int) (size : Nat) : Nat :=
  m.memoryRegions.findIdx (fun r => isValidAccess r address size)

/-- Literal translation of `Memory.isAccessAligned`: the size check
`(size != 0) && !(size & (size - 1))` is a JS 32-bit number operation
(modelled with `jsAnd`, wrapping at 32 bits), while the address check
`address & BigInt(size - 1)` is exact bigint arithmetic. -/
def isAccessAligned (address : Int) (size : Nat) : Bool :=
  let isSizePowerOf2 := size != 0 && jsAnd (Int.ofNat size) (Int.ofNat size - 1) == 0
  let sizeMask : Int := (size : Int) - 1
  let isAddressAlignedSize := landInt address sizeMask == 0
  isSizePowerOf2 && isAddressAlignedSize

/-- `Memory.read`: alignment check (`MemoryError` on failure), then delegate
to the containing region. -/
def memRead (m : Memory) (address : Int) (size : Nat) : Except MemErr (List Nat) :=
  if ¬ isAccessAligned address size then .error .memoryError
  else
    match findRegion m address size with
    | .error e => .error e
    | .ok region => regionRead region address size

/-- Closest-region scan in the write-allocation path of `Memory.write`:
minimum `address - (regionEnd - 1)` distance over regions whose end lies at
or below the address, starting from `minDistance = defaultMemRegionSize`;
returns the index and value of the winner. -/
def findClosestAux (address : Int) :
    List Region → Nat → Int → Option (Nat × Region) → Option (Nat × Region)
  | [], _, _, acc => acc
  | r :: rest, i, minDistance, acc =>
    if isAddressHigher r address then
      let regionEnd := r.regionStart + r.regionSize - 1
      let distance := address - regionEnd
      if distance < minDistance then
        findClosestAux address rest (i + 1) distance (some (i, r))
      else findClosestAux address rest (i + 1) minDistance acc
    else findClosestAux address rest (i + 1) minDistance acc

/-- `Memory.write` (src/memory, including the write-allocation `catch`
block). Note the source computes the new-region base as
`address & (defaultMemRegionSize - 1)` and catches any error of the guarded
blocks (`catch (MemoryRegionError)` and `catch (MemoryError)` bind the thrown
value; they do not filter by type). -/
def memWrite (m : Memory) (address : Int) (size : Nat) (data : List Nat) :
    Except MemErr Memory :=
  if ¬ isAccessAligned address size then .error .memoryError
  else
    let attempt : Except MemErr Memory :=
      match findRegion m address size with
      | .error e => .error e
      | .ok region =>
        match regionWrite region address size data with
        | .error e => .error e
        | .ok region1 =>
          .ok { m with
            memoryRegions := m.memoryRegions.set (findRegionIdx m address size) region1 }
    match attempt with
    | .ok m1 => .ok m1
    | .error _ =>
      let regionAlignedAddress := landInt address (m.defaultMemRegionSize - 1)
      if m.memoryRegions.isEmpty then
        match mkNormalRegion regionAlignedAddress m.defaultMemRegionSize with
        | .error e => .error e
        | .ok region =>
          match regionWrite region address size data with
          | .error e => .error e
          | .ok region1 => addMemoryRegion m region1
      else
        match findClosestAux address m.memoryRegions 0 m.defaultMemRegionSize none with
        | none =>
          let newRegionEnd := regionAlignedAddress + m.defaultMemRegionSize
          let poke : Except MemErr Memory :=
            match findRegion m newRegionEnd 1 with
            | .error e => .error e
            | .ok region =>
              let newRegionSize := region.regionStart - regionAlignedAddress
              match mkNormalRegion regionAlignedAddress newRegionSize with
              | .error e => .error e
              | .ok newRegion =>
                match regionWrite newRegion address size data with
                | .error e => .error e
                | .ok newRegion1 =>
                  if region.mergeable then
                    match regionMerge newRegion1 region with
                    | .error e => .error e
                    | .ok merged =>
                      .ok { m with
                        memoryRegions :=
                          m.memoryRegions.set (findRegionIdx m newRegionEnd 1) merged.2 }
                  else addMemoryRegion m newRegion1
          match poke with
          | .ok m1 => .ok m1
          | .error _ =>
            match mkNormalRegion regionAlignedAddress m.defaultMemRegionSize with
            | .error e => .error e
            | .ok newRegion =>
              match regionWrite newRegion address size data with
              | .error e => .error e
              | .ok newRegion1 => addMemoryRegion m newRegion1
        | some (i, closestRegion) =>
          if closestRegion.resizable then
            let newRegionEnd := regionAlignedAddress + m.defaultMemRegionSize
            let newRegionSize := newRegionEnd - closestRegion.regionStart
            let resized := (regionResize closestRegion newRegionSize).2
            match regionWrite resized address size data with
            | .error e => .error e
            | .ok written =>
              .ok { m with memoryRegions := m.memoryRegions.set i written }
          else .error .memoryError

/-- The memory of the spec scenario and of the repository unit test:
`Memory(start = 0, size = 0x1000000, defaultRegionSize = 2048)` with an
empty region list. -/
def memScenario : Memory :=
  { memoryRegions := []
    defaultMemRegionSize := 2048
    memoryStart := 0
    memorySize := 16777216 }

/-- Literal translation of `getNumberBitAt(value, start, end)` from
src/utils: `(value >>> start) & (0xFFFFFFFF >>> (32 - (end + 1 - start)))`
with JS coercions (in particular, a reversed argument order makes the
length negative and the mask shift count wraps mod 32). -/
def getNumberBitAt (value : Nat) (start endBit : Int) : Nat :=
  let length : Int := endBit + 1 - start
  Nat.land (jsShru (Int.ofNat value) start)
    (Nat.shiftRight 0xFFFFFFFF (jsToUint32 (32 - length) % 32))

/-- The 32-bit encoding the `RVInst` constructor reads from its byte buffer
with `getUint32(0, littleEndian = true)`. -/
def encodingOfBytesLE (bytes : List Nat) : Nat :=
  bytes.getD 0 0 % 256 + 256 * (bytes.getD 1 0 % 256) +
    65536 * (bytes.getD 2 0 % 256) + 16777216 * (bytes.getD 3 0 % 256)

/-- The `signField` used for immediate sign extension in the `RVInst`
constructor: `0xFFFFFFFF` when bit 31 of the encoding is set, else 0. -/
def signField (enc : Nat) : Int :=
  if getNumberBitAt enc 31 31 ≠ 0 then 4294967295 else 0

/-- The I-type immediate as the `RVInst` constructor computes it. -/
def immI (enc : Nat) : Int :=
  jsOr (jsShl (signField enc) 12) (Int.ofNat (getNumberBitAt enc 20 31))

/-- The S-type immediate as the `RVInst` constructor computes it (note the
`&` between the two disjoint bit slices). -/
def immS (enc : Nat) : Int :=
  jsOr (jsShl (signField enc) 12)
    (jsAnd (Int.ofNat (getNumberBitAt enc 7 11))
      (jsShl (Int.ofNat (getNumberBitAt enc 25 31)) 5))

/-- The B-type immediate as the `RVInst` constructor computes it (slices
combined with `&`). -/
def immB (enc : Nat) : Int :=
  jsOr (jsShl (signField enc) 13)
    (jsAnd
      (jsAnd
        (jsAnd (jsShl (Int.ofNat (getNumberBitAt enc 31 31)) 12)
          (jsShl (Int.ofNat (getNumberBitAt enc 7 7)) 11))
        (jsShl (Int.ofNat (getNumberBitAt enc 25 30)) 5))
      (jsShl (Int.ofNat (getNumberBitAt enc 11 8)) 1))

/-- The U-type immediate as the `RVInst` constructor computes it. -/
def immU (enc : Nat) : Int :=
  jsShl (Int.ofNat (getNumberBitAt enc 12 31)) 12

/-- The J-type immediate as the `RVInst` constructor computes it (slices
combined with `&`). -/
def immJ (enc : Nat) : Int :=
  jsOr (jsShl (signField enc) 21)
    (jsAnd
      (jsAnd
        (jsAnd (jsShl (Int.ofNat (getNumberBitAt enc 31 31)) 20)
          (jsShl (Int.ofNat (getNumberBitAt enc 12 19)) 12))
        (jsShl (Int.ofNat (getNumberBitAt enc 20 20)) 11))
      (jsShl (Int.ofNat (getNumberBitAt enc 21 30)) 1))

/-- Fields of a decoded `RVInst`. -/
structure RVInstFields where
  encoding : Nat
  baseOpcode : Nat
  rd : Nat
  rs1 : Nat
  rs2 : Nat
  funct3 : Nat
  funct7 : Nat
  imm_i : Int
  imm_s : Int
  imm_b : Int
  imm_u : Int
  imm_j : Int
deriving DecidableEq

/-- Decoder error (`RVIllegalInstError`). -/
inductive DecodeErr where
  | illegalInst
deriving DecidableEq

/-- The `RVInst` constructor on a 4-byte little-endian buffer: width check
`getNumberBitAt(encoding, 1, 0) != 0b11` (note the argument order passed to
`getNumberBitAt`), then field and immediate extraction. -/
def rvDecode (bytes : List Nat) : Except DecodeErr RVInstFields :=
  let encoding := encodingOfBytesLE bytes
  let widthEncoding := getNumberBitAt encoding 1 0
  if widthEncoding ≠ 3 then .error .illegalInst
  else
    .ok
      { encoding := encoding
        baseOpcode := getNumberBitAt encoding 2 6
        rd := getNumberBitAt encoding 7 11
        funct3 := getNumberBitAt encoding 12 14
        rs1 := getNumberBitAt encoding 15 19
        rs2 := getNumberBitAt encoding 20 24
        funct7 := getNumberBitAt encoding 25 31
        imm_i := immI encoding
        imm_s := immS encoding
        imm_b := immB encoding
        imm_u := immU encoding
        imm_j := immJ encoding }

/-- Bit slice `enc[hi:lo]` of an encoding, by plain arithmetic (used only
for the specification-side immediates below). -/
def bitsOf (enc lo hi : Nat) : Nat := enc / 2 ^ lo % 2 ^ (hi + 1 - lo)

/-- Standard RISC-V S-type immediate of an encoding, written from the
specification: `imm[11:5] = enc[31:25]`, `imm[4:0] = enc[11:7]`,
sign-extended from bit 31 of the encoding (bit 11 of the immediate). -/
def specImmS (enc : Nat) : Int :=
  let v := bitsOf enc 25 31 * 32 + bitsOf enc 7 11
  if v < 2048 then (v : Int) else (v : Int) - 4096

/-- Execution-dispatch errors of `RV32ICore.execute`:
`RVExecDuplicatedUnitError` and `RVIllegalInstException`. -/
inductive ExecErr where
  | duplicatedUnit
  | illegalInst
deriving DecidableEq

/-- `RV32ICore.execute` dispatch over the execution-unit list, each unit
abstracted by whether it accepts the instruction. Mirrors the `forEach`
body: before consulting a unit, throw `RVExecDuplicatedUnitError` if the
`handled` flag is already set; afterwards, throw `RVIllegalInstException`
if no unit set it. -/
def coreExecuteAux : List Bool → Bool → Except ExecErr Unit
  | [], handled => if ¬ handled then .error .illegalInst else .ok ()
  | accepts :: rest, handled =>
    if handled then .error .duplicatedUnit
    else coreExecuteAux rest (handled || accepts)

/-- `RV32ICore.execute` with `handled` starting false. -/
def coreExecute (units : List Bool) : Except ExecErr Unit :=
  coreExecuteAux units false

/-- Register-file errors: `RegisterFileError` (invalid index) and
`RegisterError` (oversized incoming buffer). -/
inductive RegErr where
  | registerFileError
  | registerError
deriving DecidableEq

/-- Sequential byte stores `data[off] = b0; data[off+1] = b1; ...` into a
typed-array-like buffer: out-of-range stores are dropped and stored values
are reduced mod 256, as a `Uint8Array` does. -/
def setRange : List Nat → Nat → List Nat → List Nat
  | d, _, [] => d
  | d, off, b :: bs => setRange (d.set off (b % 256)) (off + 1) bs

/-- `BaseRegisterFile.write` (src/core/registerfile): index check, then by
incoming width: longer than the register throws `RegisterError`; shorter
copies the bytes and fills the rest with `0xFF`/`0x00` from the sign flag
and the MSB of the incoming most-significant byte (position chosen by
endianness); equal width is a plain copy. Returns the error, if any,
together with the register-file bytes (unchanged on error, as every check
precedes the first store). -/
def rfWrite (byteWidth count : Nat) (little : Bool) (data : List Nat)
    (index : Nat) (value : List Nat) (signed : Bool) : Option RegErr × List Nat :=
  let incomingWidth := value.length
  let offset := index * byteWidth
  if ¬ (index < count) then (some .registerFileError, data)
  else if incomingWidth > byteWidth then (some .registerError, data)
  else if incomingWidth < byteWidth then
    if little then
      let msb0 := (value.getD (value.length - 1) 0 &&& 0x80) >>> 7
      let msb := if signed then msb0 else 0
      let d1 := setRange data offset value
      (none,
        setRange d1 (offset + incomingWidth)
          (List.replicate (byteWidth - incomingWidth) (if msb = 1 then 0xFF else 0x00)))
    else
      let msb0 := (value.getD 0 0 &&& 0x80) >>> 7
      let msb := if signed then msb0 else 0
      let d1 :=
        setRange data offset
          (List.replicate (byteWidth - incomingWidth) (if msb = 1 then 0xFF else 0x00))
      let offset2 := byteWidth - incomingWidth
      (none, setRange d1 (offset + offset2) value)
  else (none, setRange data offset value)

/-!
Helper lemmas shared by the claim theorems.
-/

/-- A nonzero natural with `n &&& (n - 1) = 0` is a power of two (soundness
of the bit trick used by `Memory.isAccessAligned`). -/
theorem exists_pow2_of_land_pred {n : Nat} (hn : n ≠ 0) (h : n &&& (n - 1) = 0) :
    ∃ k, n = 2 ^ k := by
  refine ⟨Nat.log 2 n, ?_⟩
  have h1 : 2 ^ Nat.log 2 n ≤ n := Nat.pow_log_le_self 2 hn
  have h2 : n < 2 ^ (Nat.log 2 n + 1) := Nat.lt_pow_succ_log_self (by norm_num) n
  by_contra hne
  have hlt : 2 ^ Nat.log 2 n < n := lt_of_le_of_ne h1 fun e => hne e.symm
  set k := Nat.log 2 n with hk
  have hpow : 2 ^ (k + 1) = 2 * 2 ^ k := by ring
  have hbn : Nat.testBit n k = true := by
    rw [Nat.testBit_to_div_mod]
    have hdiv : n / 2 ^ k = 1 :=
      Nat.div_eq_of_lt_le (by simpa using h1) (by simpa [hpow, two_mul] using h2)
    simp [hdiv]
  have hbn1 : Nat.testBit (n - 1) k = true := by
    rw [Nat.testBit_to_div_mod]
    have hdiv : (n - 1) / 2 ^ k = 1 := by
      refine Nat.div_eq_of_lt_le (by simpa using Nat.le_sub_one_of_lt hlt) ?_
      have : n - 1 < 2 ^ (k + 1) := lt_of_le_of_lt (Nat.sub_le n 1) h2
      simpa [hpow, two_mul] using this
    simp [hdiv]
  have := congrArg (fun x => Nat.testBit x k) h
  simp [Nat.testBit_and, hbn, hbn1] at this

/-- For a byte value, the extracted sign bit `(b &&& 0x80) >>> 7` equals 1
exactly when `b &&& 0x80` is nonzero. -/
theorem msb_shift_eq_one_iff (b : Nat) : (b &&& 128) >>> 7 = 1 ↔ b &&& 128 ≠ 0 := by
  have h : b &&& 128 = (b.testBit 7).toNat * 128 := by
    simpa using Nat.and_two_pow b 7
  rw [h, Nat.shiftRight_eq_div_pow]
  cases hb : b.testBit 7 <;> simp

/-- `jsToInt32` of a value already reduced below 2^32 is zero exactly when
the value is zero (values at or above 2^31 reinterpret as negatives). -/
theorem jsToInt32_ofNat_eq_zero_iff {v : Nat} (h : v < 4294967296) :
    jsToInt32 (Int.ofNat v) = 0 ↔ v = 0 := by
  simp only [jsToInt32, Int.ofNat_eq_natCast]
  have hr : ((v : Int)) % 4294967296 = (v : Int) :=
    Int.emod_eq_of_lt (by positivity) (by exact_mod_cast h)
  rw [hr]
  split <;> omega

/-- For sizes below 2^32 the JS 32-bit test `size & (size - 1)` agrees with
the exact bit test (no wrap occurs). -/
theorem jsAnd_pred_eq_zero_iff {size : Nat} (h0 : size ≠ 0) (h32 : size < 4294967296) :
    jsAnd (Int.ofNat size) (Int.ofNat size - 1) = 0 ↔ size &&& (size - 1) = 0 := by
  have hc : Int.ofNat size - 1 = Int.ofNat (size - 1) := by
    simp only [Int.ofNat_eq_natCast]
    omega
  have hu1 : jsToUint32 (Int.ofNat size) = size := by
    simp only [jsToUint32, Int.ofNat_eq_natCast]
    rw [Int.emod_eq_of_lt (by positivity) (by exact_mod_cast h32)]
    exact Int.toNat_natCast size
  have hu2 : jsToUint32 (Int.ofNat size - 1) = size - 1 := by
    rw [hc]
    simp only [jsToUint32, Int.ofNat_eq_natCast]
    rw [Int.emod_eq_of_lt (by positivity)
      (by exact_mod_cast (by omega : size - 1 < 4294967296))]
    exact Int.toNat_natCast (size - 1)
  unfold jsAnd
  rw [hu1, hu2]
  exact jsToInt32_ofNat_eq_zero_iff (lt_of_le_of_lt Nat.and_le_left h32)

/-- For sizes below 2^32, `Memory.isAccessAligned` holds exactly when the
size is a power of two and the (natural) address is a multiple of it. -/
theorem isAccessAligned_iff (addr size : Nat) (hsize : size < 4294967296) :
    isAccessAligned (addr : Int) size = true ↔ ∃ k, size = 2 ^ k ∧ addr % size = 0 := by
  unfold isAccessAligned landInt
  simp only [Bool.and_eq_true, bne_iff_ne, beq_iff_eq, ne_eq]
  constructor
  · rintro ⟨⟨hne, hjs⟩, haddr⟩
    have hland : size &&& (size - 1) = 0 := (jsAnd_pred_eq_zero_iff hne hsize).mp hjs
    obtain ⟨k, rfl⟩ := exists_pow2_of_land_pred hne hland
    refine ⟨k, rfl, ?_⟩
    have hcast : ((2 ^ k : Nat) : Int) - 1 = ((2 ^ k - 1 : Nat) : Int) := by
      have : (1 : Nat) ≤ 2 ^ k := Nat.one_le_two_pow
      push_cast [this]
      ring
    rw [hcast] at haddr
    simp only [Int.toNat_natCast] at haddr
    have : addr &&& (2 ^ k - 1) = 0 := Int.ofNat_eq_zero.mp haddr
    rwa [Nat.and_pow_two_sub_one_eq_mod] at this
  · rintro ⟨k, rfl, hmod⟩
    refine ⟨⟨by positivity, ?_⟩, ?_⟩
    · exact (jsAnd_pred_eq_zero_iff (by positivity) hsize).mpr (by simp)
    · have hcast : ((2 ^ k : Nat) : Int) - 1 = ((2 ^ k - 1 : Nat) : Int) := by
        have : (1 : Nat) ≤ 2 ^ k := Nat.one_le_two_pow
        push_cast [this]
        ring
      rw [hcast]
      simp only [Int.toNat_natCast]
      rw [Nat.and_pow_two_sub_one_eq_mod, hmod]
      rfl

/-- `Memory.findRegion` never reports `MemoryError` (its only throw is a
`MemoryRegionError`). -/
theorem findRegion_ne_memoryError (m : Memory) (address : Int) (size : Nat) :
    findRegion m address size ≠ .error .memoryError := by
  unfold findRegion
  split <;> simp

/-- `NormalMemoryRegion.read` never reports `MemoryError` (its only throw is
a `MemoryRegionError`). -/
theorem regionRead_ne_memoryError (r : Region) (address : Int) (size : Nat) :
    regionRead r address size ≠ .error .memoryError := by
  unfold regionRead
  split <;> simp

/-- The byte stores of `setRange` leave the buffer length unchanged. -/
theorem setRange_length (bs : List Nat) :
    ∀ (d : List Nat) (off : Nat), (setRange d off bs).length = d.length := by
  induction bs with
  | nil => intro d off; rfl
  | cons b bs ih =>
    intro d off
    rw [setRange, ih, List.length_set]

/-- Positions below the store window are untouched by `setRange`. -/
theorem getD_setRange_lt (bs : List Nat) :
    ∀ (d : List Nat) (off k : Nat), k < off →
      (setRange d off bs).getD k 0 = d.getD k 0 := by
  induction bs with
  | nil => intro d off k _; rfl
  | cons b bs ih =>
    intro d off k hk
    rw [setRange, ih _ _ _ (Nat.lt_succ_of_lt hk)]
    simp [List.getD_eq_getElem?_getD, List.getElem?_set_ne (Nat.ne_of_gt hk)]

/-- Inside the store window (and inside the buffer), `setRange` stores the
given bytes reduced mod 256. -/
theorem getD_setRange_get (bs : List Nat) :
    ∀ (d : List Nat) (off j : Nat), j < bs.length → off + bs.length ≤ d.length →
      (setRange d off bs).getD (off + j) 0 = bs.getD j 0 % 256 := by
  induction bs with
  | nil => intro d off j hj _; simp at hj
  | cons b bs ih =>
    intro d off j hj hlen
    rcases j with _ | j
    · simp only [Nat.add_zero]
      rw [setRange, getD_setRange_lt bs _ _ _ (Nat.lt_succ_self off)]
      have hoff : off < d.length := by
        simp only [List.length_cons] at hlen
        omega
      simp [List.getD_eq_getElem?_getD, List.getElem?_set_self hoff]
    · rw [setRange]
      have hstep : off + (j + 1) = (off + 1) + j := by omega
      rw [hstep, ih (d.set off (b % 256)) (off + 1) j (by simpa using hj)
        (by simp only [List.length_set, List.length_cons] at hlen ⊢; omega)]
      simp

/-!
Claim theorems.
-/

/-- C1: the spec scenario claims that on `Memory(0, 0x1000000, 2048)` with an
empty region list, `write(0, 4, [1,2,3,4])` succeeds and leaves one region.
In the source the write-allocated region is rejected by `isRegionValid`
(`regionStart < memorySize` holds for every in-bounds start), so the write
throws `MemoryRegionError` instead and no region is created. -/
theorem c1_write_alloc_on_empty_memory_fails :
    memWrite memScenario 0 4 [1, 2, 3, 4] = .error .regionError := by
  rfl

/-- C2: the claim says an in-bounds, `defaultRegionSize`-aligned,
non-overlapping region is accepted by `addRegion`. The source's
`isRegionValid` instead compares `regionStart < memorySize`, so the aligned
in-bounds region `[0, 2048)` of `Memory(0, 0x1000000, 2048)` is rejected
with `MemoryRegionError`. -/
theorem c2_add_in_bounds_aligned_region_fails :
    isRegionValid memScenario (normalRegion 0 2048) = false ∧
      addMemoryRegion memScenario (normalRegion 0 2048) = .error .regionError := by
  exact ⟨rfl, rfl⟩

/-- C3: the claim says write-allocation starts new regions at
`addr & ~(defaultRegionSize - 1)`. The source computes
`addr & (defaultRegionSize - 1)`: for `write(2048, 4, ...)` on the empty
scenario memory the new region base evaluates to 0 (not 2048), the
region-local write at 2048 is then out of range, and the whole write throws
instead of creating an aligned region at 2048. -/
theorem c3_write_alloc_base_misaligned :
    landInt 2048 (memScenario.defaultMemRegionSize - 1) = 0 ∧
      memWrite memScenario 2048 4 [1, 2, 3, 4] = .error .regionError := by
  exact ⟨rfl, rfl⟩

/-- C4: the claim says every encoding with bits `[1:0] = 0b11` decodes with
the standard RISC-V immediates. For the bytes `[0x33, 0x02, 0x00, 0x00]`
(encoding 0x233, low bits 0b11) the constructor throws: its width check
calls `getNumberBitAt(encoding, 1, 0)`, which evaluates `encoding >>> 1`
rather than bits `[1:0]`. Moreover the S-immediate expression ANDs two
disjoint slices, giving 0 where the standard S-immediate of 0x233 is 4. -/
theorem c4_decoder_rejects_valid_encoding :
    encodingOfBytesLE [0x33, 0x02, 0x00, 0x00] % 4 = 3 ∧
      rvDecode [0x33, 0x02, 0x00, 0x00] = .error .illegalInst ∧
      immS (encodingOfBytesLE [0x33, 0x02, 0x00, 0x00]) = 0 ∧
      specImmS (encodingOfBytesLE [0x33, 0x02, 0x00, 0x00]) = 4 := by
  refine ⟨rfl, rfl, ?_, ?_⟩ <;> decide

/-- C5: the claim says `ExecDuplicatedUnitError` is raised only when two
units accept the same instruction, and that the step retires when exactly
one accepts. The dispatch loop throws as soon as any later unit is reached
after one acceptance: with units `[accept, reject]` exactly one unit
accepts, yet the core raises `ExecDuplicatedUnitError`. (With the accepting
unit last, `[reject, accept]`, the step retires; with none, it raises
`IllegalInstException`.) -/
theorem c5_dispatch_duplicate_without_second_acceptance :
    coreExecute [true, false] = .error .duplicatedUnit ∧
      coreExecute [false, true] = .ok () ∧
      coreExecute [false, false] = .error .illegalInst := by
  exact ⟨rfl, rfl, rfl⟩

/-- C6: the claim (and the repository property test) says merging two
non-adjacent regions fails with `RegionError`. `NormalMemoryRegion`'s
`_mergeHelper` unconditionally concatenates and reports success, so merging
`[0,4)` with the non-adjacent `[8,12)` returns true and produces a region
`[0,8)`. -/
theorem c6_nonadjacent_merge_succeeds :
    regionMerge (normalRegion 0 4) (normalRegion 8 4) =
      .ok (true,
        { regionStart := 0
          regionSize := 8
          resizable := true
          relocatable := false
          mergeable := true
          memBackend := List.replicate 8 0 }) := by
  rfl

/-- C7: the claim says read-after-write returns the written bytes for every
access contained in the region. For the contained access `[4, 8)` of region
`[0, 8)` (ending exactly at the region end) the write itself already throws
`MemoryRegionError` because `isValidAccess` rejects `accessEnd >=
regionSize`, so the round trip cannot return the payload. -/
theorem c7_write_at_region_end_fails :
    regionWrite (normalRegion 0 8) 4 4 [9, 9, 9, 9] = .error .regionError := by
  rfl

/-- C8: the claim says accesses whose half-open range is contained in the
region succeed, including those ending exactly at the region end. Reading
`[4, 8)` from region `[0, 8)` throws `MemoryRegionError`: `isValidAccess`
rejects `accessEnd >= regionSize` instead of `accessEnd > regionSize`. -/
theorem c8_read_at_region_end_fails :
    regionRead (normalRegion 0 8) 4 4 = .error .regionError := by
  rfl

/-- C9 counterexample: the claim says an aligned access of size 16 fails
with `MemoryError` before any region is consulted. On the scenario memory,
`read(0, 16)` passes the alignment check (16 is a power of two) and fails
in the region lookup with `MemoryRegionError`, not `MemoryError`. -/
theorem c9_sixteen_byte_read_not_memory_error :
    memRead memScenario 0 16 ≠ .error .memoryError ∧
      memRead memScenario 0 16 = .error .regionError := by
  have h : memRead memScenario 0 16 = .error .regionError := rfl
  refine ⟨?_, h⟩
  rw [h]
  intro hcontra
  exact absurd (Except.error.inj hcontra) (by decide)

/-- C9 (amended): for every size below 2^32 (where the 32-bit size test of
the source does not wrap), `Memory.read` fails with `MemoryError` exactly
when the size is not a power of two or the address is not a multiple of the
size; any power-of-two size (16 included) passes the check and proceeds to
the region lookup, whose failures are `RegionError`. -/
theorem c9_memRead_memoryError_iff (m : Memory) (addr size : Nat)
    (hsize : size < 4294967296) :
    memRead m (addr : Int) size = .error .memoryError ↔
      ¬ ∃ k, size = 2 ^ k ∧ addr % size = 0 := by
  rw [← isAccessAligned_iff addr size hsize]
  unfold memRead
  by_cases h : isAccessAligned (addr : Int) size = true
  · rw [if_neg (by simp [h])]
    simp only [h, not_true_eq_false, iff_false]
    rcases hfind : findRegion m (addr : Int) size with e | r
    · have := findRegion_ne_memoryError m (addr : Int) size
      rw [hfind] at this
      simpa using this
    · exact regionRead_ne_memoryError r (addr : Int) size
  · rw [if_pos (by simpa using h)]
    simp [h]

/-- C9 witness: the amended characterization instantiated on the scenario
memory at the misaligned 4-byte access `read(2, 4)`, discharging the
size bound concretely. -/
theorem c9_memRead_memoryError_iff_witness :
    (4 : Nat) < 4294967296 ∧
      (memRead memScenario ((2 : Nat) : Int) 4 = .error .memoryError ↔
        ¬ ∃ k, (4 : Nat) = 2 ^ k ∧ 2 % 4 = 0) :=
  ⟨by decide, c9_memRead_memoryError_iff memScenario 2 4 (by decide)⟩

/-- C10: for a valid register index, `BaseRegisterFile.write` with a buffer
longer than the register width fails with `RegisterError` leaving the bytes
unchanged, and with a shorter buffer fills every remaining high-order byte
(positions chosen by endianness) with `0xFF` exactly when `signed` is set
and the MSB of the incoming most-significant byte is set, and with `0x00`
otherwise. -/
theorem c10_rfWrite_sign_extension (bw cnt : Nat) (little : Bool)
    (data : List Nat) (i : Nat) (value : List Nat) (signed : Bool)
    (hi : i < cnt) (hd : data.length = cnt * bw) :
    (bw < value.length →
      rfWrite bw cnt little data i value signed = (some .registerError, data)) ∧
    (value.length < bw →
      (rfWrite bw cnt little data i value signed).1 = none ∧
      ∀ j, j < bw - value.length →
        (rfWrite bw cnt little data i value signed).2.getD
            (i * bw + (if little then value.length + j else j)) 0 =
          (if signed = true ∧
              value.getD (if little then value.length - 1 else 0) 0 &&& 0x80 ≠ 0
            then 0xFF else 0x00)) := by
  have hext : ∀ b : Nat,
      (if (if signed then (b &&& 128) >>> 7 else 0) = 1 then (255 : Nat) else 0) % 256 =
        (if signed = true ∧ b &&& 128 ≠ 0 then 255 else 0) := by
    intro b
    cases signed with
    | false => simp
    | true =>
      by_cases hb : (b &&& 128) >>> 7 = 1
      · rw [if_pos (by simpa using hb),
          if_pos ⟨rfl, (msb_shift_eq_one_iff b).mp hb⟩]
      · rw [if_neg (by simpa using hb),
          if_neg (by simp [(msb_shift_eq_one_iff b).not.mp hb])]
  constructor
  · intro hlong
    simp only [rfWrite]
    rw [if_neg (not_not_intro hi), if_pos hlong]
  · intro hshort
    have hnotlong : ¬ value.length > bw := by omega
    have hbound : i * bw + bw ≤ data.length := by
      rw [hd]
      calc i * bw + bw = (i + 1) * bw := by ring
        _ ≤ cnt * bw := Nat.mul_le_mul_right bw hi
    cases little with
    | true =>
      have hb : rfWrite bw cnt true data i value signed =
          (none, setRange (setRange data (i * bw) value) (i * bw + value.length)
            (List.replicate (bw - value.length)
              (if (if signed then (value.getD (value.length - 1) 0 &&& 128) >>> 7 else 0) = 1
                then 255 else 0))) := by
        simp only [rfWrite]
        rw [if_neg (not_not_intro hi), if_neg hnotlong, if_pos hshort, if_pos trivial]
      rw [hb]
      refine ⟨rfl, ?_⟩
      intro j hj
      simp only [if_pos trivial]
      have hlen1 : (setRange data (i * bw) value).length = data.length :=
        setRange_length value data (i * bw)
      have hget := getD_setRange_get
        (List.replicate (bw - value.length)
          (if (if signed then (value.getD (value.length - 1) 0 &&& 128) >>> 7 else 0) = 1
            then 255 else 0))
        (setRange data (i * bw) value) (i * bw + value.length) j
        (by simpa using hj)
        (by rw [hlen1, List.length_replicate]; omega)
      rw [Nat.add_assoc] at hget
      rw [hget, List.getD_eq_getElem?_getD,
        List.getElem?_replicate_of_lt (by simpa using hj)]
      simpa using hext (value.getD (value.length - 1) 0)
    | false =>
      have hb : rfWrite bw cnt false data i value signed =
          (none, setRange
            (setRange data (i * bw)
              (List.replicate (bw - value.length)
                (if (if signed then (value.getD 0 0 &&& 128) >>> 7 else 0) = 1
                  then 255 else 0)))
            (i * bw + (bw - value.length)) value) := by
        simp only [rfWrite]
        rw [if_neg (not_not_intro hi), if_neg hnotlong, if_pos hshort, if_neg (by simp)]
      rw [hb]
      refine ⟨rfl, ?_⟩
      intro j hj
      simp only [Bool.false_eq_true, if_neg (fun h : False => h)]
      rw [getD_setRange_lt value _ _ _ (by omega)]
      have hget := getD_setRange_get
        (List.replicate (bw - value.length)
          (if (if signed then (value.getD 0 0 &&& 128) >>> 7 else 0) = 1
            then 255 else 0))
        data (i * bw) j (by simpa using hj)
        (by rw [List.length_replicate]; omega)
      rw [hget, List.getD_eq_getElem?_getD,
        List.getElem?_replicate_of_lt (by simpa using hj)]
      simpa using hext (value.getD 0 0)

/-- C10 witness: a 1-byte signed write of `0x85` into register 1 of a
two-register 32-bit little-endian file extends with `0xFF`; the claim
theorem instantiated at this concrete input. -/
theorem c10_rfWrite_sign_extension_witness :
    (rfWrite 4 2 true (List.replicate 8 0) 1 [133] true).2.getD 5 0 = 255 := by
  have h := (c10_rfWrite_sign_extension 4 2 true (List.replicate 8 0) 1 [133] true
    (by decide) (by decide)).2 (by decide)
  have h2 := h.2 0 (by decide)
  simpa using h2

end RVEmu
